import Mathlib

/-!
Verification of the path-finder career-recommendation core
(`python-backend/agents_v2/orchestrator_agent.py`, `pipeline.py`,
`models/requests.py`) against its natural-language specification.

Modelling conventions:
* Python numbers (JSON scores, float division such as `10 / max(target_high - 1, 1)`)
  are modelled as exact rationals `ℚ`.  The constants `0.5`, `0.3`, `0.6`, `0.2`,
  `0.15` are modelled by the exact fractions `1/2`, `3/10`, `3/5`, `1/5`, `3/20`;
  CPython double arithmetic agrees with the exact model for every list length up
  to 10^6 (the floors `int(total*0.5)`, `int(total*0.3)` and the three threshold
  comparisons were checked exhaustively), and the per-rank tier formulas only ever
  feed claims through band membership, which the clamps `max(85,·)`, `max(70,·)`,
  `max(60,·)` make insensitive to sub-ulp rounding.
* Python `int(x)` (truncation toward zero) is `pyInt`.
* A recommendation dict is the structure `Recommendation`; a possibly missing
  `"fitScore"` key is `Option ℚ`, and `x.get("fitScore", 0)` is `getFitScore`.
* `list.sort(key=..., reverse=True)` (stable, descending) is `List.mergeSort`
  with the total relation `scoreDescLe` (Lean's `mergeSort` is stable and keeps
  the left element first on ties, exactly like CPython's sort with `reverse=True`,
  which reverses comparisons but not tie order).
* Exceptions of `async` branches are explicit `Except String` outcomes, and the
  external LLM / `json.loads` calls are parameters (`chatResult`, `decode`):
  `decode c = none` models `json.loads` raising `json.JSONDecodeError` on `c`,
  `decode c = some recs` models a successful parse followed by
  `result.get("recommendations", [])`.
-/

namespace PathFinder

/-- Python `int(x)`: truncation toward zero (floor for nonnegative values). -/
def pyInt (q : ℚ) : ℤ := if 0 ≤ q then ⌊q⌋ else ⌈q⌉

/-- One recommendation dict produced by the LLM (fields from
`orchestrator_agent.py`; `fitScore` is `none` when the key is absent). -/
structure Recommendation where
  fitScore : Option ℚ
  careerId : String
  careerName : String
  industry : String
  summary : String
  medianSalary : String
  growthOutlook : String
  estimatedTime : String
  whyGoodFit : String
deriving DecidableEq, Repr

/-- `x.get("fitScore", 0)` from `_normalize_scores`. -/
def getFitScore (r : Recommendation) : ℚ := r.fitScore.getD 0

/-- Sort relation for `recommendations.sort(key=lambda x: x.get("fitScore", 0), reverse=True)`:
keep `a` before `b` when `a`'s score is at least `b`'s. -/
def scoreDescLe (a b : Recommendation) : Bool := decide (getFitScore b ≤ getFitScore a)

/-- The stable descending sort performed at the top of `_normalize_scores`. -/
def sortByScoreDesc (l : List Recommendation) : List Recommendation :=
  l.mergeSort scoreDescLe

/-- `high_scores = sum(1 for s in scores if s >= 85)`. -/
def highCount (l : List Recommendation) : ℕ :=
  (l.map getFitScore).countP (fun s => decide (85 ≤ s))

/-- `mid_scores = sum(1 for s in scores if 70 <= s < 85)`. -/
def midCount (l : List Recommendation) : ℕ :=
  (l.map getFitScore).countP (fun s => decide (70 ≤ s ∧ s < 85))

/-- `low_scores = sum(1 for s in scores if 60 <= s < 70)`. -/
def lowCount (l : List Recommendation) : ℕ :=
  (l.map getFitScore).countP (fun s => decide (60 ≤ s ∧ s < 70))

/-- The health check of `_normalize_scores`:
`high_scores <= total * 0.6 and mid_scores >= total * 0.2 and low_scores >= total * 0.15`. -/
def healthyDist (l : List Recommendation) : Bool :=
  decide ((highCount l : ℚ) ≤ (l.length : ℚ) * (3/5)) &&
  decide ((l.length : ℚ) * (1/5) ≤ (midCount l : ℚ)) &&
  decide ((l.length : ℚ) * (3/20) ≤ (lowCount l : ℚ))

/-- `target_high = int(total * 0.5)`. -/
def targetHigh (total : ℕ) : ℕ := total / 2

/-- `target_mid = int(total * 0.3)`. -/
def targetMid (total : ℕ) : ℕ := 3 * total / 10

/-- `target_low = total - target_high - target_mid`. -/
def targetLow (total : ℕ) : ℕ := total - targetHigh total - targetMid total

/-- The rescaled score assigned to rank `i` on the unhealthy path of
`_normalize_scores` (0-indexed over the descending-sorted list). -/
def newScore (total i : ℕ) : ℤ :=
  if i < targetHigh total then
    max 85 (pyInt (95 - (i : ℚ) * (10 / ((max (targetHigh total - 1) 1 : ℕ) : ℚ))))
  else if i < targetHigh total + targetMid total then
    max 70 (pyInt (84 - ((i - targetHigh total : ℕ) : ℚ) *
      (14 / ((max (targetMid total - 1) 1 : ℕ) : ℚ))))
  else
    max 60 (pyInt (69 - ((i - targetHigh total - targetMid total : ℕ) : ℚ) *
      (9 / ((max (targetLow total - 1) 1 : ℕ) : ℚ))))

/-- `rec["fitScore"] = max(..., int(new_score))` at rank `i`. -/
def rescoreAt (total i : ℕ) (r : Recommendation) : Recommendation :=
  { r with fitScore := some ((newScore total i : ℤ) : ℚ) }

/-- `CareerOrchestratorAgent._normalize_scores`: early-return on the empty
list, stable descending sort, the health check on the sorted scores with
`total = len(recommendations)`, and on the unhealthy path the in-place
per-rank rescaling `rec["fitScore"] = max(..., int(new_score))`. -/
def normalize_scores (recommendations : List Recommendation) : List Recommendation :=
  if recommendations.isEmpty then recommendations
  else if healthyDist (sortByScoreDesc recommendations) then sortByScoreDesc recommendations
  else (sortByScoreDesc recommendations).mapIdx
    (fun i r => rescoreAt recommendations.length i r)

/-- The sentinel candidate built in the `except Exception` branch of
`CareerOrchestratorAgent.recommend`. -/
def errorFallback : Recommendation where
  fitScore := some 0
  careerId := "error-fallback"
  careerName := "Career Recommendations Temporarily Unavailable"
  industry := "System"
  summary := "Unable to generate recommendations at this time. Please try again."
  medianSalary := "N/A"
  growthOutlook := "N/A"
  estimatedTime := "N/A"
  whyGoodFit := "System error occurred during recommendation generation."

/-- The code-fence stripping performed on the raw LLM response in
`CareerOrchestratorAgent.recommend` (`content.strip()`, then if it starts with
a fence take `content.split("```")[1]`, drop a leading `"json"`, strip again). -/
def extractContent (raw : String) : String :=
  let content := raw.trim
  if content.startsWith "```" then
    let piece := (content.splitOn "```")[1]?.getD ""
    let piece := if piece.startsWith "json" then piece.drop 4 else piece
    piece.trim
  else content

/-- `CareerOrchestratorAgent.recommend`, as a function of the outcome of the
single `llm.chat` call and of the JSON decoder.  `chatResult = Except.error e`
models `llm.chat` (or any pre-parse step) raising a generic exception, which the
`except Exception` handler turns into the sentinel set.  `decode c = none`
models `json.loads(c)` raising `json.JSONDecodeError`: that handler only logs
and falls through the end of the function, so Python returns `None`, modelled
as `none`.  The result is the `recommendations` list of the returned dict. -/
def recommend (decode : String → Option (List Recommendation))
    (chatResult : Except String String) : Option (List Recommendation) :=
  match chatResult with
  | Except.error _ => some [errorFallback]
  | Except.ok raw =>
    match decode (extractContent raw) with
    | none => none
    | some recommendations => some (normalize_scores recommendations)

/-- `OnboardingRequest.transcript` carries pydantic `Field(min_length=10)`
(`models/requests.py`); this is the only transcript-length validation in the
backend, and it is attached to a request model that no endpoint uses:
`/api/onboarding/start` parses `OnboardingStartRequest` (no constraint) and
`CareerAnalysisPipeline.analyze` performs no check of its own. -/
def onboardingRequestValid (transcript : String) : Bool :=
  decide (10 ≤ transcript.length)

/-- A profile payload as assembled by `CareerAnalysisPipeline.analyze`: either a
JSON array (`skills`, `personality`, `passions`, `values`) or a JSON object
(`goals`).  Items and fields are kept opaque; the pipeline never inspects them. -/
inductive PValue where
  | arr (items : List String)
  | obj (fields : List (String × String))
deriving DecidableEq, Repr

/-- The five profiling agents, as functions from the pipeline's inputs to the
outcome of their `analyze` coroutine: `Except.error e` models the coroutine
raising, `Except.ok d` a returned dict whose expected key is `d` (`none` when
the dict lacks the key, so that `.get(key, default)` falls back). -/
structure AgentSet where
  skill : String → String → Except String (Option PValue)
  personality : String → Except String (Option PValue)
  passion : String → Except String (Option PValue)
  goal_lifestyle : String → Except String (Option PValue)
  values_branch : String → Except String (Option PValue)

/-- The five results of `asyncio.gather(..., return_exceptions=True)` in
`CareerAnalysisPipeline.analyze` (`results[0]` .. `results[4]`). -/
structure FanOutResults where
  skills_result : Except String (Option PValue)
  personality_result : Except String (Option PValue)
  passions_result : Except String (Option PValue)
  goals_result : Except String (Option PValue)
  values_result : Except String (Option PValue)

/-- The fan-out itself: one invocation of each of the five agents, all on the
same transcript (the skill agent also receives the resume text).  This happens
unconditionally — `analyze` performs no transcript validation first. -/
def fanOut (agents : AgentSet) (transcript resume_text : String) : FanOutResults where
  skills_result := agents.skill transcript resume_text
  personality_result := agents.personality transcript
  passions_result := agents.passion transcript
  goals_result := agents.goal_lifestyle transcript
  values_result := agents.values_branch transcript

/-- The `results` list returned by `asyncio.gather`; its length is the number
of analyzer invocations the fan-out performed. -/
def gatherList (r : FanOutResults) : List (Except String (Option PValue)) :=
  [r.skills_result, r.personality_result, r.passions_result,
   r.goals_result, r.values_result]

/-- `results[i] if not isinstance(results[i], Exception) else {key: default}`
followed by `.get(key, default)`: an exception and a missing key both yield the
kind's default payload. -/
def branchValue (defaultV : PValue) (res : Except String (Option PValue)) : PValue :=
  match res with
  | Except.error _ => defaultV
  | Except.ok d => d.getD defaultV

/-- The `career_profile` dict literal of `CareerAnalysisPipeline.analyze`
(defaults: `[]` for `skills`/`personality`/`passions`/`values`, `{}` for `goals`). -/
def buildCareerProfile (r : FanOutResults) : List (String × PValue) :=
  [("skills", branchValue (PValue.arr []) r.skills_result),
   ("personality", branchValue (PValue.arr []) r.personality_result),
   ("passions", branchValue (PValue.arr []) r.passions_result),
   ("goals", branchValue (PValue.obj []) r.goals_result),
   ("values", branchValue (PValue.arr []) r.values_result)]

/-- The dict returned by `CareerAnalysisPipeline.analyze`. -/
structure AnalyzeResult where
  careerProfile : List (String × PValue)
  careerRecommendations : List Recommendation
deriving DecidableEq

/-- The minimal fallback returned by `analyze`'s outer `except Exception`. -/
def fallbackAnalyzeResult : AnalyzeResult where
  careerProfile :=
    [("skills", PValue.arr []), ("personality", PValue.arr []),
     ("passions", PValue.arr []), ("goals", PValue.obj []),
     ("values", PValue.arr [])]
  careerRecommendations := []

/-- `CareerAnalysisPipeline.analyze`.  The five branches are gathered with
`return_exceptions=True`, so a raising branch becomes a defaulted profile entry
and never escapes.  The orchestrator's `recommend` is then awaited; when it
returns `None` (see `recommend`), `recommendations_result.get(...)` raises
`AttributeError`, which the outer `except Exception` turns into
`fallbackAnalyzeResult`. -/
def pipelineAnalyze (agents : AgentSet)
    (decode : String → Option (List Recommendation))
    (chatResult : Except String String)
    (transcript resume_text : String) : AnalyzeResult :=
  let results := fanOut agents transcript resume_text
  let career_profile := buildCareerProfile results
  match recommend decode chatResult with
  | none => fallbackAnalyzeResult
  | some recs => { careerProfile := career_profile, careerRecommendations := recs }

/-- Number of candidates whose (defaulted) fit score lies in `[lo, hi]`;
used to state the distribution claims of the specification. -/
def countInBand (lo hi : ℚ) (l : List Recommendation) : ℕ :=
  l.countP (fun r => decide (lo ≤ getFitScore r ∧ getFitScore r ≤ hi))

/-- Replace a missing `"fitScore"` key by an explicit `0` (what
`x.get("fitScore", 0)` pretends the dict contains). -/
def fill0 (r : Recommendation) : Recommendation :=
  { r with fitScore := some (getFitScore r) }

/-- Erase the score, keeping the candidate's identity; used to state
rank-order preservation. -/
def dropScore (r : Recommendation) : Recommendation :=
  { r with fitScore := none }

/-- Test candidate with a given score and id (other fields empty). -/
def mkC (s : ℚ) (id : String) : Recommendation :=
  { fitScore := some s, careerId := id, careerName := "", industry := "",
    summary := "", medianSalary := "", growthOutlook := "",
    estimatedTime := "", whyGoodFit := "" }

/-! ### Basic facts about the sort relation and the sorted list -/

lemma scoreDescLe_trans : ∀ a b c : Recommendation,
    scoreDescLe a b = true → scoreDescLe b c = true → scoreDescLe a c = true := by
  intro a b c hab hbc
  simp only [scoreDescLe, decide_eq_true_eq] at hab hbc ⊢
  exact le_trans hbc hab

lemma scoreDescLe_total : ∀ a b : Recommendation,
    (scoreDescLe a b || scoreDescLe b a) = true := by
  intro a b
  simp only [scoreDescLe, Bool.or_eq_true, decide_eq_true_eq]
  exact le_total (getFitScore b) (getFitScore a)

lemma pairwise_sortByScoreDesc (l : List Recommendation) :
    (sortByScoreDesc l).Pairwise (fun a b => getFitScore b ≤ getFitScore a) := by
  have h := List.sorted_mergeSort scoreDescLe_trans scoreDescLe_total l
  exact h.imp (by intro a b hab; simpa [scoreDescLe] using hab)

lemma sortByScoreDesc_perm (l : List Recommendation) : (sortByScoreDesc l).Perm l :=
  List.mergeSort_perm l scoreDescLe

lemma length_sortByScoreDesc (l : List Recommendation) :
    (sortByScoreDesc l).length = l.length :=
  List.length_mergeSort l

lemma sortByScoreDesc_fix (l : List Recommendation) :
    sortByScoreDesc (sortByScoreDesc l) = sortByScoreDesc l :=
  List.mergeSort_of_sorted (List.sorted_mergeSort scoreDescLe_trans scoreDescLe_total l)

lemma highCount_perm {l l' : List Recommendation} (h : l.Perm l') :
    highCount l = highCount l' :=
  (h.map getFitScore).countP_eq _

lemma midCount_perm {l l' : List Recommendation} (h : l.Perm l') :
    midCount l = midCount l' :=
  (h.map getFitScore).countP_eq _

lemma lowCount_perm {l l' : List Recommendation} (h : l.Perm l') :
    lowCount l = lowCount l' :=
  (h.map getFitScore).countP_eq _

lemma healthyDist_perm {l l' : List Recommendation} (h : l.Perm l') :
    healthyDist l = healthyDist l' := by
  unfold healthyDist
  rw [highCount_perm h, midCount_perm h, lowCount_perm h, h.length_eq]

lemma healthyDist_sort (l : List Recommendation) :
    healthyDist (sortByScoreDesc l) = healthyDist l :=
  healthyDist_perm (sortByScoreDesc_perm l)

/-! ### Facts about `pyInt` and the per-rank score formula -/

lemma pyInt_le_int {q : ℚ} {c : ℤ} (h : q ≤ (c : ℚ)) : pyInt q ≤ c := by
  unfold pyInt
  split
  · have := Int.floor_le_floor h
    rwa [Int.floor_intCast] at this
  · have := Int.ceil_le_ceil h
    rwa [Int.ceil_intCast] at this

lemma pyInt_mono {q q' : ℚ} (h : q ≤ q') : pyInt q ≤ pyInt q' := by
  unfold pyInt
  split <;> split
  · exact Int.floor_le_floor h
  · rename_i h1 h2
    exact absurd (le_trans h1 h) h2
  · rename_i h1 h2
    have hc : ⌈q⌉ ≤ 0 := by
      have := Int.ceil_le_ceil (le_of_lt (lt_of_not_ge h1))
      simpa using this
    have hf : (0 : ℤ) ≤ ⌊q'⌋ := by
      rw [Int.le_floor]
      exact_mod_cast h2
    omega
  · exact Int.ceil_le_ceil h

lemma one_le_denom (n : ℕ) : (1 : ℚ) ≤ ((max (n - 1) 1 : ℕ) : ℚ) := by
  exact_mod_cast le_max_right (n - 1) 1

lemma coeff_nonneg (a : ℚ) (ha : 0 ≤ a) (n : ℕ) :
    0 ≤ a / ((max (n - 1) 1 : ℕ) : ℚ) :=
  div_nonneg ha (le_trans zero_le_one (one_le_denom n))

lemma newScore_bounds_high {total i : ℕ} (h : i < targetHigh total) :
    85 ≤ newScore total i ∧ newScore total i ≤ 95 := by
  unfold newScore
  rw [if_pos h]
  refine ⟨le_max_left _ _, max_le (by norm_num) (pyInt_le_int ?_)⟩
  have hc := coeff_nonneg 10 (by norm_num) (targetHigh total)
  have hk : (0 : ℚ) ≤ (i : ℚ) * (10 / ((max (targetHigh total - 1) 1 : ℕ) : ℚ)) :=
    mul_nonneg (by positivity) hc
  push_cast at hk ⊢
  linarith

lemma newScore_bounds_mid {total i : ℕ} (h1 : ¬ i < targetHigh total)
    (h2 : i < targetHigh total + targetMid total) :
    70 ≤ newScore total i ∧ newScore total i ≤ 84 := by
  unfold newScore
  rw [if_neg h1, if_pos h2]
  refine ⟨le_max_left _ _, max_le (by norm_num) (pyInt_le_int ?_)⟩
  have hc := coeff_nonneg 14 (by norm_num) (targetMid total)
  have hk : (0 : ℚ) ≤ ((i - targetHigh total : ℕ) : ℚ) *
      (14 / ((max (targetMid total - 1) 1 : ℕ) : ℚ)) :=
    mul_nonneg (by positivity) hc
  push_cast at hk ⊢
  linarith

lemma newScore_bounds_low {total i : ℕ}
    (h2 : ¬ i < targetHigh total + targetMid total) :
    60 ≤ newScore total i ∧ newScore total i ≤ 69 := by
  have h1 : ¬ i < targetHigh total := by omega
  unfold newScore
  rw [if_neg h1, if_neg h2]
  refine ⟨le_max_left _ _, max_le (by norm_num) (pyInt_le_int ?_)⟩
  have hc := coeff_nonneg 9 (by norm_num) (targetLow total)
  have hk : (0 : ℚ) ≤ ((i - targetHigh total - targetMid total : ℕ) : ℚ) *
      (9 / ((max (targetLow total - 1) 1 : ℕ) : ℚ)) :=
    mul_nonneg (by positivity) hc
  push_cast at hk ⊢
  linarith

lemma newScore_bounds (total i : ℕ) :
    60 ≤ newScore total i ∧ newScore total i ≤ 95 := by
  by_cases h1 : i < targetHigh total
  · have h := newScore_bounds_high h1
    omega
  · by_cases h2 : i < targetHigh total + targetMid total
    · have h := newScore_bounds_mid h1 h2
      omega
    · have h := newScore_bounds_low h2
      omega

lemma newScore_mono_high {total i j : ℕ} (hj : j < targetHigh total) (hij : i ≤ j) :
    newScore total j ≤ newScore total i := by
  have hi : i < targetHigh total := lt_of_le_of_lt hij hj
  unfold newScore
  rw [if_pos hi, if_pos hj]
  apply max_le_max le_rfl
  apply pyInt_mono
  have hc := coeff_nonneg 10 (by norm_num) (targetHigh total)
  have : (i : ℚ) * (10 / ((max (targetHigh total - 1) 1 : ℕ) : ℚ)) ≤
      (j : ℚ) * (10 / ((max (targetHigh total - 1) 1 : ℕ) : ℚ)) :=
    mul_le_mul_of_nonneg_right (by exact_mod_cast hij) hc
  linarith

lemma newScore_mono_mid {total i j : ℕ} (hi1 : ¬ i < targetHigh total)
    (hj2 : j < targetHigh total + targetMid total) (hij : i ≤ j) :
    newScore total j ≤ newScore total i := by
  have hi2 : i < targetHigh total + targetMid total := lt_of_le_of_lt hij hj2
  have hj1 : ¬ j < targetHigh total := by omega
  unfold newScore
  rw [if_neg hi1, if_pos hi2, if_neg hj1, if_pos hj2]
  apply max_le_max le_rfl
  apply pyInt_mono
  have hc := coeff_nonneg 14 (by norm_num) (targetMid total)
  have hkk : ((i - targetHigh total : ℕ) : ℚ) ≤ ((j - targetHigh total : ℕ) : ℚ) := by
    exact_mod_cast Nat.sub_le_sub_right hij (targetHigh total)
  have := mul_le_mul_of_nonneg_right hkk hc
  linarith

lemma newScore_mono_low {total i j : ℕ}
    (hi2 : ¬ i < targetHigh total + targetMid total) (hij : i ≤ j) :
    newScore total j ≤ newScore total i := by
  have hj2 : ¬ j < targetHigh total + targetMid total := by omega
  have hi1 : ¬ i < targetHigh total := by omega
  have hj1 : ¬ j < targetHigh total := by omega
  unfold newScore
  rw [if_neg hi1, if_neg hi2, if_neg hj1, if_neg hj2]
  apply max_le_max le_rfl
  apply pyInt_mono
  have hc := coeff_nonneg 9 (by norm_num) (targetLow total)
  have hkk : ((i - targetHigh total - targetMid total : ℕ) : ℚ) ≤
      ((j - targetHigh total - targetMid total : ℕ) : ℚ) := by
    exact_mod_cast Nat.sub_le_sub_right (Nat.sub_le_sub_right hij _) (targetMid total)
  have := mul_le_mul_of_nonneg_right hkk hc
  linarith

lemma newScore_antitone (total : ℕ) {i j : ℕ} (hij : i ≤ j) :
    newScore total j ≤ newScore total i := by
  by_cases hj1 : j < targetHigh total
  · exact newScore_mono_high hj1 hij
  · by_cases hi1 : i < targetHigh total
    · by_cases hj2 : j < targetHigh total + targetMid total
      · have hI := newScore_bounds_high hi1
        have hJ := newScore_bounds_mid hj1 hj2
        omega
      · have hI := newScore_bounds_high hi1
        have hJ := newScore_bounds_low hj2
        omega
    · by_cases hj2 : j < targetHigh total + targetMid total
      · exact newScore_mono_mid hi1 hj2 hij
      · by_cases hi2 : i < targetHigh total + targetMid total
        · have hI := newScore_bounds_mid hi1 hi2
          have hJ := newScore_bounds_low hj2
          omega
        · exact newScore_mono_low hi2 hij

/-! ### The rescaling pass as a function of ranks -/

lemma map_getFitScore_mapIdx (total : ℕ) (l : List Recommendation) :
    (l.mapIdx (fun i r => rescoreAt total i r)).map getFitScore
      = (List.range l.length).map (fun i => ((newScore total i : ℤ) : ℚ)) := by
  apply List.ext_getElem
  · simp
  · intro n h1 h2
    simp [List.getElem_mapIdx, rescoreAt, getFitScore]

lemma map_dropScore_mapIdx (total : ℕ) (l : List Recommendation) :
    (l.mapIdx (fun i r => rescoreAt total i r)).map dropScore = l.map dropScore := by
  apply List.ext_getElem
  · simp
  · intro n h1 h2
    simp [List.getElem_mapIdx, rescoreAt, dropScore]

lemma length_normalize (recs : List Recommendation) :
    (normalize_scores recs).length = recs.length := by
  unfold normalize_scores
  split
  · rfl
  · split
    · exact length_sortByScoreDesc recs
    · simp [List.length_mapIdx, length_sortByScoreDesc]

lemma countInBand_eq_map (lo hi : ℚ) (l : List Recommendation) :
    countInBand lo hi l
      = (l.map getFitScore).countP (fun s => decide (lo ≤ s ∧ s ≤ hi)) := by
  unfold countInBand
  rw [List.countP_map]
  rfl

lemma count_partition (s : List ℚ) :
    s.countP (fun x => decide (85 ≤ x)) + s.countP (fun x => decide (70 ≤ x ∧ x < 85))
      + s.countP (fun x => decide (60 ≤ x ∧ x < 70))
      + s.countP (fun x => decide (x < 60)) = s.length := by
  induction s with
  | nil => rfl
  | cons a l ih =>
    rw [List.length_cons]
    rcases lt_or_le a 60 with h | h
    · rw [List.countP_cons_of_neg _ l
          (by simp only [decide_eq_true_eq]; intro hx; linarith),
        List.countP_cons_of_neg _ l
          (by simp only [decide_eq_true_eq]; rintro ⟨hx, _⟩; linarith),
        List.countP_cons_of_neg _ l
          (by simp only [decide_eq_true_eq]; rintro ⟨hx, _⟩; linarith),
        List.countP_cons_of_pos _ l (by simp only [decide_eq_true_eq]; exact h)]
      omega
    · rcases lt_or_le a 70 with h' | h'
      · rw [List.countP_cons_of_neg _ l
            (by simp only [decide_eq_true_eq]; intro hx; linarith),
          List.countP_cons_of_neg _ l
            (by simp only [decide_eq_true_eq]; rintro ⟨hx, _⟩; linarith),
          List.countP_cons_of_pos _ l
            (by simp only [decide_eq_true_eq]; exact ⟨h, h'⟩),
          List.countP_cons_of_neg _ l
            (by simp only [decide_eq_true_eq]; intro hx; linarith)]
        omega
      · rcases lt_or_le a 85 with h'' | h''
        · rw [List.countP_cons_of_neg _ l
              (by simp only [decide_eq_true_eq]; intro hx; linarith),
            List.countP_cons_of_pos _ l
              (by simp only [decide_eq_true_eq]; exact ⟨h', h''⟩),
            List.countP_cons_of_neg _ l
              (by simp only [decide_eq_true_eq]; rintro ⟨_, hx⟩; linarith),
            List.countP_cons_of_neg _ l
              (by simp only [decide_eq_true_eq]; intro hx; linarith)]
          omega
        · rw [List.countP_cons_of_pos _ l
              (by simp only [decide_eq_true_eq]; exact h''),
            List.countP_cons_of_neg _ l
              (by simp only [decide_eq_true_eq]; rintro ⟨_, hx⟩; linarith),
            List.countP_cons_of_neg _ l
              (by simp only [decide_eq_true_eq]; rintro ⟨_, hx⟩; linarith),
            List.countP_cons_of_neg _ l
              (by simp only [decide_eq_true_eq]; intro hx; linarith)]
          omega

/-! ### Claim theorems -/

/-- C1: the claim says that on a JSON-decode failure `recommend` returns a
one-candidate sentinel set; in the code the `except json.JSONDecodeError`
handler only logs and falls through the end of the function, so `recommend`
returns Python `None` (modelled `none`).  The sentinel set is produced only by
the generic `except Exception` handler, i.e. for non-decode failures. -/
theorem recommend_decode_failure_returns_none :
    recommend (fun _ => none) (Except.ok "this is not JSON") = none ∧
    recommend (fun _ => none) (Except.error "network error") = some [errorFallback] :=
  ⟨rfl, rfl⟩

/-- C4: the claim says an empty transcript raises `InputError` before fan-out
with zero analyzer invocations; in the code `CareerAnalysisPipeline.analyze`
performs no input validation, so on the empty transcript the fan-out happens
and all five analyzers are invoked.  The only `min_length=10` constraint lives
on the unused `OnboardingRequest` model (and does reject the empty transcript,
as the second conjunct records). -/
theorem empty_transcript_invokes_all_five_analyzers :
    (∀ agents : AgentSet, ∀ resume_text : String,
      (gatherList (fanOut agents "" resume_text)).length = 5) ∧
    onboardingRequestValid "" = false :=
  ⟨fun _ _ => rfl, by decide⟩

/-- C6 counterexample: a candidate with `fitScore = 50 < 60` is counted in
none of the bands — `low_scores` counts only `60 <= s < 70` — so the claim
that every sub-60 candidate is counted as low is false: here the list has one
sub-60 candidate yet `lowCount` is `0`. -/
theorem sub60_not_counted_low_counterexample :
    lowCount [mkC 90 "a", mkC 50 "b"] = 0 ∧
    List.countP (fun r => decide (getFitScore r < 60)) [mkC 90 "a", mkC 50 "b"] = 1 := by
  constructor <;> decide

/-- C6 amended: the low band of the health classification counts exactly the
candidates with `60 ≤ fitScore < 70`; candidates with `fitScore < 60` belong
to none of the three bands (high + mid + low + sub-60 partition the list), so
they influence the health predicate only by inflating the total. -/
theorem band_counts_partition (recs : List Recommendation) :
    lowCount recs
      = recs.countP (fun r => decide (60 ≤ getFitScore r ∧ getFitScore r < 70)) ∧
    highCount recs + midCount recs + lowCount recs
      + recs.countP (fun r => decide (getFitScore r < 60)) = recs.length := by
  constructor
  · unfold lowCount
    rw [List.countP_map]
    rfl
  · unfold highCount midCount lowCount
    have h4 : recs.countP (fun r => decide (getFitScore r < 60))
        = (recs.map getFitScore).countP (fun s => decide (s < 60)) := by
      rw [List.countP_map]
      rfl
    rw [h4]
    rw [show recs.length = (recs.map getFitScore).length from (List.length_map _ _).symm]
    exact count_partition (recs.map getFitScore)

/-- C7: for every input list, the sequence of (defaulted) fit scores of
`_normalize_scores`' output is non-increasing — on the empty-input path, the
healthy path (descending sort) and the unhealthy rescaling path alike. -/
theorem normalize_fitScore_nonincreasing (recs : List Recommendation) :
    List.Chain' (fun a b => getFitScore b ≤ getFitScore a) (normalize_scores recs) := by
  unfold normalize_scores
  split
  · rename_i hE
    rw [List.isEmpty_iff.mp hE]
    simp
  · split
    · exact (pairwise_sortByScoreDesc recs).chain'
    · apply List.Pairwise.chain'
      have hmap := map_getFitScore_mapIdx recs.length (sortByScoreDesc recs)
      have h1 : List.Pairwise (fun x y : ℚ => y ≤ x)
          (((sortByScoreDesc recs).mapIdx
            (fun i r => rescoreAt recs.length i r)).map getFitScore) := by
        rw [hmap, List.pairwise_map]
        refine (List.pairwise_lt_range _).imp ?_
        intro i j hij
        exact_mod_cast newScore_antitone recs.length (le_of_lt hij)
      rw [List.pairwise_map] at h1
      exact h1

/-- Integer form of the health check (multiplying the three threshold
comparisons out); lets concrete instances be settled by kernel evaluation,
which cannot normalize `ℚ` arithmetic. -/
lemma healthyDist_eq_nat (l : List Recommendation) :
    healthyDist l = (decide (highCount l * 5 ≤ 3 * l.length) &&
      decide (l.length ≤ midCount l * 5) && decide (l.length * 3 ≤ lowCount l * 20)) := by
  unfold healthyDist
  have h1 : ((highCount l : ℚ) ≤ (l.length : ℚ) * (3/5)) ↔
      (highCount l * 5 ≤ 3 * l.length) := by
    rw [show ((l.length : ℚ) * (3/5)) = (3 * (l.length : ℚ))/5 by ring,
      le_div_iff₀ (by norm_num : (0:ℚ) < 5)]
    constructor
    · intro h; exact_mod_cast h
    · intro h; exact_mod_cast h
  have h2 : ((l.length : ℚ) * (1/5) ≤ (midCount l : ℚ)) ↔
      (l.length ≤ midCount l * 5) := by
    rw [show ((l.length : ℚ) * (1/5)) = (l.length : ℚ)/5 by ring,
      div_le_iff₀ (by norm_num : (0:ℚ) < 5)]
    constructor
    · intro h; exact_mod_cast h
    · intro h; exact_mod_cast h
  have h3 : ((l.length : ℚ) * (3/20) ≤ (lowCount l : ℚ)) ↔
      (l.length * 3 ≤ lowCount l * 20) := by
    rw [show ((l.length : ℚ) * (3/20)) = ((l.length : ℚ) * 3)/20 by ring,
      div_le_iff₀ (by norm_num : (0:ℚ) < 20)]
    constructor
    · intro h; exact_mod_cast h
    · intro h; exact_mod_cast h
  rw [decide_eq_decide.mpr h1, decide_eq_decide.mpr h2, decide_eq_decide.mpr h3]

lemma newScore_zero_of_targetHigh_one {total : ℕ} (h : targetHigh total = 1) :
    newScore total 0 = 95 := by
  unfold newScore
  rw [if_pos (show 0 < targetHigh total by omega)]
  have h0 : ((0:ℕ):ℚ) * (10 / ((max (targetHigh total - 1) 1 : ℕ) : ℚ)) = 0 := by
    norm_num
  rw [h0, sub_zero]
  have h95 : pyInt (95 : ℚ) = 95 := by
    unfold pyInt
    rw [if_pos (by norm_num), show ((95:ℚ)) = ((95:ℤ):ℚ) by norm_num,
      Int.floor_intCast]
  rw [h95]
  norm_num

lemma not_healthyDist_ne_nil {recs : List Recommendation}
    (h : healthyDist recs = false) : recs ≠ [] := by
  intro hh
  subst hh
  have htr : healthyDist ([] : List Recommendation) = true := by
    rw [healthyDist_eq_nat]
    decide
  rw [htr] at h
  exact absurd h (by decide)

lemma normalize_unhealthy_eq {recs : List Recommendation}
    (h : healthyDist recs = false) :
    normalize_scores recs = (sortByScoreDesc recs).mapIdx
      (fun i r => rescoreAt recs.length i r) := by
  have hne := not_healthyDist_ne_nil h
  have hsf : healthyDist (sortByScoreDesc recs) = false := by
    rw [healthyDist_sort]
    exact h
  unfold normalize_scores
  rw [if_neg (by simp [List.isEmpty_eq_false.mpr hne]), if_neg (by simp [hsf])]

/-- C3: when the band counts of the input satisfy the health predicate,
`_normalize_scores` returns the descending-sorted list with every candidate
(and hence every fit score) unchanged — the output is a permutation of the
input — and applying the normalizer a second time changes nothing. -/
theorem normalize_healthy_identity (recs : List Recommendation)
    (h : healthyDist recs = true) :
    normalize_scores recs = sortByScoreDesc recs ∧
    normalize_scores (normalize_scores recs) = normalize_scores recs ∧
    (normalize_scores recs).Perm recs := by
  have hs : healthyDist (sortByScoreDesc recs) = true := by
    rw [healthyDist_sort]
    exact h
  by_cases hE : recs.isEmpty
  · rw [List.isEmpty_iff.mp hE]
    refine ⟨?_, ?_, ?_⟩ <;> simp [normalize_scores, sortByScoreDesc]
  · have h1 : normalize_scores recs = sortByScoreDesc recs := by
      unfold normalize_scores
      rw [if_neg hE, if_pos hs]
    have hne : sortByScoreDesc recs ≠ [] := by
      intro hh
      have hp := sortByScoreDesc_perm recs
      rw [hh] at hp
      exact hE (by rw [hp.symm.eq_nil]; rfl)
    refine ⟨h1, ?_, h1 ▸ sortByScoreDesc_perm recs⟩
    rw [h1]
    unfold normalize_scores
    rw [if_neg (by simp [List.isEmpty_eq_false.mpr hne]), sortByScoreDesc_fix,
      if_pos hs]

/-- Healthy example: scores 90, 75, 62 (high = mid = low = 1 of 3: `1 ≤ 1.8`,
`1 ≥ 0.6`, `1 ≥ 0.45`). -/
def exHealthy : List Recommendation := [mkC 90 "a", mkC 75 "b", mkC 62 "c"]

/-- Witness for C3 at the concrete healthy list `exHealthy`. -/
theorem normalize_healthy_identity_check :
    healthyDist exHealthy = true ∧
    normalize_scores (normalize_scores exHealthy) = normalize_scores exHealthy := by
  have h : healthyDist exHealthy = true := by
    rw [healthyDist_eq_nat]
    decide
  exact ⟨h, (normalize_healthy_identity exHealthy h).2.1⟩

/-- C8: the three tier denominators `max(tierSize − 1, 1)` are at least 1 for
every total (so no tier formula divides by zero, even for tiers of size 0 or
1), and on the unhealthy path with a high tier of size exactly 1 the rank-0
candidate receives exactly 95. -/
theorem single_high_tier_rank0_gets_95 (recs : List Recommendation)
    (hun : healthyDist recs = false) (h1 : targetHigh recs.length = 1) :
    (∀ total : ℕ, 1 ≤ max (targetHigh total - 1) 1 ∧ 1 ≤ max (targetMid total - 1) 1 ∧
      1 ≤ max (targetLow total - 1) 1) ∧
    (normalize_scores recs).head?.map getFitScore = some 95 := by
  refine ⟨fun total => ⟨le_max_right _ _, le_max_right _ _, le_max_right _ _⟩, ?_⟩
  have hne := not_healthyDist_ne_nil hun
  rw [normalize_unhealthy_eq hun]
  have hlen : 0 < ((sortByScoreDesc recs).mapIdx
      (fun i r => rescoreAt recs.length i r)).length := by
    rw [List.length_mapIdx, length_sortByScoreDesc]
    exact List.length_pos.mpr hne
  rw [List.head?_eq_getElem?, List.getElem?_eq_getElem hlen]
  rw [List.getElem_mapIdx]
  simp only [rescoreAt, Option.map_some]
  rw [newScore_zero_of_targetHigh_one h1]
  simp [getFitScore]

/-- Unhealthy example: two candidates at 90 (high count 2 exceeds
`2 * 0.6`), with `targetHigh 2 = 1`. -/
def exTwoHigh : List Recommendation := [mkC 90 "a", mkC 90 "b"]

/-- Witness for C8 at the concrete unhealthy two-candidate list. -/
theorem single_high_tier_rank0_gets_95_check :
    healthyDist exTwoHigh = false ∧ targetHigh exTwoHigh.length = 1 ∧
    (normalize_scores exTwoHigh).head?.map getFitScore = some 95 := by
  have ha : healthyDist exTwoHigh = false := by
    rw [healthyDist_eq_nat]
    decide
  have hb : targetHigh exTwoHigh.length = 1 := by decide
  exact ⟨ha, hb, (single_high_tier_rank0_gets_95 exTwoHigh ha hb).2⟩

/-- C9: whenever the health check fails (so the rescaling path runs), every
candidate in the output carries an integer fit score in `[60, 95]`, whatever
the original (possibly out-of-range or missing) scores were. -/
theorem rescaled_scores_in_range (recs : List Recommendation)
    (hun : healthyDist recs = false) :
    ∀ r ∈ normalize_scores recs,
      ∃ z : ℤ, r.fitScore = some ((z : ℤ) : ℚ) ∧ 60 ≤ z ∧ z ≤ 95 := by
  rw [normalize_unhealthy_eq hun]
  intro r hr
  rw [List.mem_iff_getElem] at hr
  obtain ⟨n, hn, rfl⟩ := hr
  rw [List.getElem_mapIdx]
  refine ⟨newScore recs.length n, rfl, (newScore_bounds _ _).1, (newScore_bounds _ _).2⟩

/-- Witness for C9 at the concrete unhealthy two-candidate list. -/
theorem rescaled_scores_in_range_check :
    healthyDist exTwoHigh = false ∧
    ∀ r ∈ normalize_scores exTwoHigh,
      ∃ z : ℤ, r.fitScore = some ((z : ℤ) : ℚ) ∧ 60 ≤ z ∧ z ≤ 95 := by
  have ha : healthyDist exTwoHigh = false := by
    rw [healthyDist_eq_nat]
    decide
  exact ⟨ha, rescaled_scores_in_range exTwoHigh ha⟩

lemma map_fill0_sort (l : List Recommendation) :
    (sortByScoreDesc l).map fill0 = sortByScoreDesc (l.map fill0) := by
  unfold sortByScoreDesc
  exact List.map_mergeSort (fun a _ b _ => rfl)

lemma healthyDist_map_fill0 (l : List Recommendation) :
    healthyDist (l.map fill0) = healthyDist l := by
  unfold healthyDist highCount midCount lowCount
  rw [List.map_map, List.length_map]
  have hcomp : getFitScore ∘ fill0 = getFitScore := rfl
  rw [hcomp]

/-- C10: a candidate whose dict lacks the `"fitScore"` key is handled exactly
as if it carried an explicit score `0` — both when sorting and when counting
bands for the health check — so the output score sequence and candidate order
are unchanged by making the `0` explicit, and the normalizer is total (same
output length, no failure). -/
theorem missing_fitScore_treated_as_zero (recs : List Recommendation) :
    (normalize_scores (recs.map fill0)).map getFitScore
      = (normalize_scores recs).map getFitScore ∧
    (normalize_scores (recs.map fill0)).map dropScore
      = (normalize_scores recs).map dropScore ∧
    (normalize_scores recs).length = recs.length := by
  have hEmap : (recs.map fill0).isEmpty = recs.isEmpty := by
    cases recs <;> rfl
  by_cases hE : recs.isEmpty = true
  · have h0 : recs = [] := List.isEmpty_iff.mp hE
    subst h0
    exact ⟨rfl, rfl, rfl⟩
  · by_cases hH : healthyDist (sortByScoreDesc recs) = true
    · have hH' : healthyDist (sortByScoreDesc (recs.map fill0)) = true := by
        rw [← map_fill0_sort, healthyDist_map_fill0]
        exact hH
      have e1 : normalize_scores recs = sortByScoreDesc recs := by
        unfold normalize_scores
        rw [if_neg hE, if_pos hH]
      have e2 : normalize_scores (recs.map fill0) = sortByScoreDesc (recs.map fill0) := by
        unfold normalize_scores
        rw [if_neg (by rw [hEmap]; exact hE), if_pos hH']
      rw [e1, e2, ← map_fill0_sort, List.map_map, List.map_map]
      exact ⟨rfl, rfl, length_sortByScoreDesc recs⟩
    · have hH' : healthyDist (sortByScoreDesc (recs.map fill0)) = false := by
        rw [← map_fill0_sort, healthyDist_map_fill0]
        exact Bool.eq_false_iff.mpr hH
      have e1 : normalize_scores recs = (sortByScoreDesc recs).mapIdx
          (fun i r => rescoreAt recs.length i r) := by
        unfold normalize_scores
        rw [if_neg hE, if_neg hH]
      have e2 : normalize_scores (recs.map fill0)
          = (sortByScoreDesc (recs.map fill0)).mapIdx
            (fun i r => rescoreAt (recs.map fill0).length i r) := by
        unfold normalize_scores
        rw [if_neg (by rw [hEmap]; exact hE), if_neg (by rw [hH']; simp)]
      rw [e1, e2, List.length_map]
      refine ⟨?_, ?_, ?_⟩
      · rw [map_getFitScore_mapIdx, map_getFitScore_mapIdx, ← map_fill0_sort,
          List.length_map]
      · rw [map_dropScore_mapIdx, map_dropScore_mapIdx, ← map_fill0_sort,
          List.map_map]
        rfl
      · rw [List.length_mapIdx, length_sortByScoreDesc]

lemma band_high_iff (i : ℕ) :
    ((85:ℚ) ≤ ((newScore 20 i : ℤ) : ℚ) ∧ ((newScore 20 i : ℤ) : ℚ) ≤ 95) ↔ i < 10 := by
  have h10 : targetHigh 20 = 10 := rfl
  by_cases h : i < 10
  · have hb := @newScore_bounds_high 20 i (by rw [h10]; exact h)
    exact iff_of_true ⟨by exact_mod_cast hb.1, by exact_mod_cast hb.2⟩ h
  · have h1 : ¬ i < targetHigh 20 := by rw [h10]; exact h
    have hle : newScore 20 i ≤ 84 := by
      by_cases h2 : i < targetHigh 20 + targetMid 20
      · exact (newScore_bounds_mid h1 h2).2
      · exact le_trans (newScore_bounds_low h2).2 (by norm_num)
    refine iff_of_false ?_ h
    rintro ⟨hx, _⟩
    have : (85:ℤ) ≤ newScore 20 i := by exact_mod_cast hx
    omega

lemma band_mid_iff (i : ℕ) :
    ((70:ℚ) ≤ ((newScore 20 i : ℤ) : ℚ) ∧ ((newScore 20 i : ℤ) : ℚ) ≤ 84) ↔
      (10 ≤ i ∧ i < 16) := by
  have h10 : targetHigh 20 = 10 := rfl
  have h16 : targetHigh 20 + targetMid 20 = 16 := rfl
  by_cases h : i < 10
  · have hb := @newScore_bounds_high 20 i (by rw [h10]; exact h)
    refine iff_of_false ?_ (by omega)
    rintro ⟨_, hx⟩
    have : newScore 20 i ≤ 84 := by exact_mod_cast hx
    omega
  · by_cases h2 : i < 16
    · have hb := @newScore_bounds_mid 20 i (by rw [h10]; exact h)
        (by rw [h16]; exact h2)
      exact iff_of_true ⟨by exact_mod_cast hb.1, by exact_mod_cast hb.2⟩
        ⟨by omega, h2⟩
    · have hb := @newScore_bounds_low 20 i (by rw [h16]; exact h2)
      refine iff_of_false ?_ (by omega)
      rintro ⟨hx, _⟩
      have : (70:ℤ) ≤ newScore 20 i := by exact_mod_cast hx
      omega

lemma band_low_iff (i : ℕ) :
    ((60:ℚ) ≤ ((newScore 20 i : ℤ) : ℚ) ∧ ((newScore 20 i : ℤ) : ℚ) ≤ 69) ↔
      16 ≤ i := by
  have h10 : targetHigh 20 = 10 := rfl
  have h16 : targetHigh 20 + targetMid 20 = 16 := rfl
  by_cases h2 : i < 16
  · refine iff_of_false ?_ (by omega)
    rintro ⟨_, hx⟩
    have hup : newScore 20 i ≤ 69 := by exact_mod_cast hx
    by_cases h : i < 10
    · have hb := @newScore_bounds_high 20 i (by rw [h10]; exact h)
      omega
    · have hb := @newScore_bounds_mid 20 i (by rw [h10]; exact h)
        (by rw [h16]; exact h2)
      omega
  · have hb := @newScore_bounds_low 20 i (by rw [h16]; exact h2)
    exact iff_of_true ⟨by exact_mod_cast hb.1, by exact_mod_cast hb.2⟩ (by omega)

/-- C2: on 20 candidates of which 18 score at least 85 and 2 score below 60
(so high = 90 percent and the distribution is unhealthy), `_normalize_scores`
rescales so that exactly 10 candidates land in `[85, 95]`, exactly 6 in
`[70, 84]` and exactly 4 in `[60, 69]`, and the output lists the candidates
exactly in their descending-by-original-score (stable) order. -/
theorem unhealthy_20_18_2_redistribution (recs : List Recommendation)
    (hlen : recs.length = 20)
    (hhigh : recs.countP (fun r => decide (85 ≤ getFitScore r)) = 18)
    (hlow : recs.countP (fun r => decide (getFitScore r < 60)) = 2) :
    countInBand 85 95 (normalize_scores recs) = 10 ∧
    countInBand 70 84 (normalize_scores recs) = 6 ∧
    countInBand 60 69 (normalize_scores recs) = 4 ∧
    (normalize_scores recs).map dropScore = (sortByScoreDesc recs).map dropScore := by
  have hhighS : highCount (sortByScoreDesc recs) = 18 := by
    rw [highCount_perm (sortByScoreDesc_perm recs)]
    unfold highCount
    rw [List.countP_map]
    exact hhigh
  have hunS : healthyDist (sortByScoreDesc recs) = false := by
    unfold healthyDist
    have hl : (sortByScoreDesc recs).length = 20 := by
      rw [length_sortByScoreDesc, hlen]
    rw [hhighS, hl]
    have hx : ¬ (((18:ℕ):ℚ) ≤ ((20:ℕ):ℚ) * (3/5)) := by
      push_cast
      norm_num
    rw [decide_eq_false hx]
    rfl
  have hun : healthyDist recs = false := by
    rw [← healthyDist_sort]
    exact hunS
  rw [normalize_unhealthy_eq hun]
  refine ⟨?_, ?_, ?_, map_dropScore_mapIdx _ _⟩
  · rw [countInBand_eq_map, map_getFitScore_mapIdx, length_sortByScoreDesc, hlen,
      List.countP_map]
    trans (List.countP (fun i => decide (i < 10)) (List.range 20))
    · apply List.countP_congr
      intro i _
      simp only [Function.comp, decide_eq_true_eq]
      exact band_high_iff i
    · decide
  · rw [countInBand_eq_map, map_getFitScore_mapIdx, length_sortByScoreDesc, hlen,
      List.countP_map]
    trans (List.countP (fun i => decide (10 ≤ i ∧ i < 16)) (List.range 20))
    · apply List.countP_congr
      intro i _
      simp only [Function.comp, decide_eq_true_eq]
      exact band_mid_iff i
    · decide
  · rw [countInBand_eq_map, map_getFitScore_mapIdx, length_sortByScoreDesc, hlen,
      List.countP_map]
    trans (List.countP (fun i => decide (16 ≤ i)) (List.range 20))
    · apply List.countP_congr
      intro i _
      simp only [Function.comp, decide_eq_true_eq]
      exact band_low_iff i
    · decide

/-- Twenty candidates, 18 at score 90 and two below 60. -/
def ex20 : List Recommendation :=
  [mkC 90 "c01", mkC 90 "c02", mkC 90 "c03", mkC 90 "c04", mkC 90 "c05",
   mkC 90 "c06", mkC 90 "c07", mkC 90 "c08", mkC 90 "c09", mkC 90 "c10",
   mkC 90 "c11", mkC 90 "c12", mkC 90 "c13", mkC 90 "c14", mkC 90 "c15",
   mkC 90 "c16", mkC 90 "c17", mkC 90 "c18", mkC 50 "c19", mkC 40 "c20"]

/-- Witness for C2 at the concrete 18-high/2-low list of 20. -/
theorem unhealthy_20_18_2_redistribution_check :
    ex20.length = 20 ∧
    ex20.countP (fun r => decide (85 ≤ getFitScore r)) = 18 ∧
    ex20.countP (fun r => decide (getFitScore r < 60)) = 2 ∧
    countInBand 85 95 (normalize_scores ex20) = 10 := by
  have h1 : ex20.length = 20 := rfl
  have h2 : ex20.countP (fun r => decide (85 ≤ getFitScore r)) = 18 := by decide
  have h3 : ex20.countP (fun r => decide (getFitScore r < 60)) = 2 := by decide
  exact ⟨h1, h2, h3, (unhealthy_20_18_2_redistribution ex20 h1 h2 h3).1⟩

/-- C5: whatever subset of the five analyzer branches raises (all five
included) and whatever the recommendation step does, `analyze` returns — it
never re-raises a branch exception — and its career profile carries exactly
the five keys `skills`, `personality`, `passions`, `goals`, `values`, with
every failed kind mapped to its default payload (`[]`, or `{}` for goals). -/
theorem pipeline_profile_keys_and_defaults (agents : AgentSet)
    (decode : String → Option (List Recommendation))
    (chatResult : Except String String) (transcript resume_text : String) :
    ((pipelineAnalyze agents decode chatResult transcript resume_text).careerProfile.map
        Prod.fst = ["skills", "personality", "passions", "goals", "values"]) ∧
    (∀ e, agents.skill transcript resume_text = Except.error e →
      List.lookup "skills"
        (pipelineAnalyze agents decode chatResult transcript resume_text).careerProfile
        = some (PValue.arr [])) ∧
    (∀ e, agents.personality transcript = Except.error e →
      List.lookup "personality"
        (pipelineAnalyze agents decode chatResult transcript resume_text).careerProfile
        = some (PValue.arr [])) ∧
    (∀ e, agents.passion transcript = Except.error e →
      List.lookup "passions"
        (pipelineAnalyze agents decode chatResult transcript resume_text).careerProfile
        = some (PValue.arr [])) ∧
    (∀ e, agents.goal_lifestyle transcript = Except.error e →
      List.lookup "goals"
        (pipelineAnalyze agents decode chatResult transcript resume_text).careerProfile
        = some (PValue.obj [])) ∧
    (∀ e, agents.values_branch transcript = Except.error e →
      List.lookup "values"
        (pipelineAnalyze agents decode chatResult transcript resume_text).careerProfile
        = some (PValue.arr [])) := by
  cases hrec : recommend decode chatResult with
  | none =>
    simp only [pipelineAnalyze, hrec]
    exact ⟨rfl, fun e he => rfl, fun e he => rfl, fun e he => rfl,
      fun e he => rfl, fun e he => rfl⟩
  | some recs =>
    simp only [pipelineAnalyze, hrec]
    refine ⟨rfl, ?_, ?_, ?_, ?_, ?_⟩ <;> intro e he <;>
      simp [buildCareerProfile, List.lookup, fanOut, branchValue, he]

/-- All five branches raise. -/
def agentsAllFail : AgentSet where
  skill := fun _ _ => Except.error "boom"
  personality := fun _ => Except.error "boom"
  passion := fun _ => Except.error "boom"
  goal_lifestyle := fun _ => Except.error "boom"
  values_branch := fun _ => Except.error "boom"

/-- Witness for C5: all five branches raising, with the recommendation step
itself hitting the JSON-decode bug (so `recommend` yields `None`); `analyze`
still returns the five keys and the goals default. -/
theorem pipeline_profile_keys_and_defaults_check :
    ((pipelineAnalyze agentsAllFail (fun _ => none) (Except.ok "x") "t" "r").careerProfile.map
        Prod.fst = ["skills", "personality", "passions", "goals", "values"]) ∧
    List.lookup "goals"
      (pipelineAnalyze agentsAllFail (fun _ => none) (Except.ok "x") "t" "r").careerProfile
      = some (PValue.obj []) := by
  have h := pipeline_profile_keys_and_defaults agentsAllFail (fun _ => none)
    (Except.ok "x") "t" "r"
  exact ⟨h.1, h.2.2.2.2.1 "boom" rfl⟩

end PathFinder
